/-
Verification of the fedimint consensus API and Lightning gateway core
against its natural-language specification.

Shallow embedding: the Rust functions of
  src/fedimint-server/src/net/api.rs
  src/gateway/ln-gateway/src/lib.rs
  src/gateway/ln-gateway/src/lnrpc_client.rs
are translated into executable Lean definitions.  Wall-clock instants
become natural numbers, module/database/crypto collaborators become
explicit environment records of functions, async effects become pure
state passing, and Rust panics become `Option.none` results.
-/
import Mathlib

namespace Fedimint

/-! ## Expiring single-flight cache (`ExpiringCache`, api.rs lines 586-614)

`Instant` is a natural number; `elapsed` at time `now` is truncated
subtraction `now - time`.  `get` additionally returns the updated cache
state and whether the producer was invoked, making the effect trace
explicit. -/

structure ExpiringCache (T : Type) where
  data : Option (T × Nat)
  duration : Nat
deriving Repr

/-- `ExpiringCache::get`: if a cached value exists and its age is strictly
less than `duration`, return it unchanged; otherwise invoke the producer,
store the result with the current instant, and return it.  The `Bool`
component records whether the producer was invoked. -/
def ExpiringCache.get {T : Type} (c : ExpiringCache T) (now : Nat)
    (f : Unit → T) : T × ExpiringCache T × Bool :=
  match c.data with
  | some (d, time) =>
    if now - time < c.duration then
      (d, c, false)
    else
      let newData := f ()
      (newData, { c with data := some (newData, now) }, true)
  | none =>
    let newData := f ()
    (newData, { c with data := some (newData, now) }, true)

/-! ## Client config download gate (`download_client_config`, api.rs 199-230)

The database state relevant to the gate is the optional use-counter stored
under `ClientConfigDownloadKey`.  The client config is abstracted to a
natural number.  The result is the API reply together with the updated
counter state. -/

inductive ApiError where
  | badRequest (msg : String)
  | notFound (msg : String)
  | serverError (msg : String)
  | unauthorized
deriving Repr, DecidableEq

/-- `ConsensusApi::download_client_config`: compare the supplied token with
the configured one; on mismatch fail.  Otherwise read the counter
(defaulting to 0), add one, write it back, and reject when a configured
limit is exceeded. -/
def download_client_config (cfgToken : String) (limit : Option Nat)
    (clientCfg : Nat) (infoToken : String) (st : Option Nat) :
    Except ApiError Nat × Option Nat :=
  if infoToken ≠ cfgToken then
    (.error (.badRequest "Download token not found"), st)
  else
    let timesUsed := st.getD 0 + 1
    let st' := some timesUsed
    match limit with
    | some l =>
      if timesUsed > l then
        (.error (.badRequest "Download token used too many times"), st')
      else
        (.ok clientCfg, st')
    | none => (.ok clientCfg, st')

/-- Counter state after `k` successive `download_client_config` calls with
the matching token, starting from the given state. -/
def downloadStateAfter (cfgToken : String) (limit : Option Nat)
    (clientCfg : Nat) : Nat → Option Nat → Option Nat
  | 0, st => st
  | k + 1, st =>
    downloadStateAfter cfgToken limit clientCfg k
      (download_client_config cfgToken limit clientCfg cfgToken st).2

/-! ## Client backup store (`handle_backup_request` / `handle_recover_request`,
api.rs 284-320)

The backup database is a function from ids (naturals standing for x-only
public keys) to optional snapshots.  Signature verification is an opaque
predicate supplied with the request. -/

structure ClientBackupSnapshot where
  timestamp : Nat
  data : List Nat
deriving Repr, DecidableEq

structure BackupRequest where
  sigValid : Bool
  id : Nat
  timestamp : Nat
  payload : List Nat
deriving Repr, DecidableEq

/-- `ConsensusApi::handle_backup_request`: verify the signature; reject a
timestamp no larger than the stored one; otherwise write the new record. -/
def handle_backup_request (db : Nat → Option ClientBackupSnapshot)
    (request : BackupRequest) :
    Except ApiError Unit × (Nat → Option ClientBackupSnapshot) :=
  if ¬ request.sigValid then
    (.error (.badRequest "invalid request"), db)
  else
    match db request.id with
    | some prev =>
      if request.timestamp ≤ prev.timestamp then
        (.error (.badRequest "timestamp too small"), db)
      else
        (.ok (), fun i =>
          if i = request.id then
            some ⟨request.timestamp, request.payload⟩
          else db i)
    | none =>
      (.ok (), fun i =>
        if i = request.id then
          some ⟨request.timestamp, request.payload⟩
        else db i)

/-- `ConsensusApi::handle_recover_request`: plain lookup. -/
def handle_recover_request (db : Nat → Option ClientBackupSnapshot)
    (id : Nat) : Option ClientBackupSnapshot :=
  db id

/-- Fold a sequence of backup requests over the database. -/
def applyBackups (db : Nat → Option ClientBackupSnapshot) :
    List BackupRequest → (Nat → Option ClientBackupSnapshot)
  | [] => db
  | r :: rest => applyBackups (handle_backup_request db r).2 rest

/-! ## Consensus status calculator (`calculate_consensus_status`, api.rs 323-391)

Peer ids are naturals, instants are naturals (`time.elapsed()` at `now`
is `now - time`), and the two input hash maps become association lists.
A connection-status read that failed (`Some(Err(e))` in Rust) is an
`Except.error`. -/

inductive PeerConnectionStatus where
  | Connected
  | Disconnected
deriving Repr, DecidableEq

structure ConsensusContribution where
  value : Nat
  time : Nat
deriving Repr, DecidableEq

structure PeerConsensusStatus where
  connection_status : PeerConnectionStatus := .Disconnected
  last_contribution : Option Nat := none
  last_contribution_timestamp_seconds : Option Nat := none
  flagged : Bool := false
deriving Repr, DecidableEq

structure ConsensusStatus where
  last_contribution : Nat
  peers_online : Nat
  peers_offline : Nat
  peers_flagged : Nat
  status_by_peer : List (Nat × PeerConsensusStatus)
deriving Repr, DecidableEq

/-- The per-peer body of `calculate_consensus_status`. -/
def peerConsensusStatus (latestContributionByPeer : List (Nat × ConsensusContribution))
    (ourLastContribution : Nat)
    (peersConnectionStatus : List (Nat × Except String PeerConnectionStatus))
    (now grace : Nat) (peer : Nat) : PeerConsensusStatus :=
  let base : PeerConsensusStatus := {}
  let (st, hasRecentContribution) :=
    match latestContributionByPeer.lookup peer with
    | some contribution =>
      let isBehindUs : Bool := decide (contribution.value < ourLastContribution)
      let hasRecent : Bool := decide (now - contribution.time ≤ grace)
      ({ base with
          flagged := isBehindUs && !hasRecent
          last_contribution := some contribution.value
          last_contribution_timestamp_seconds := some contribution.time },
       hasRecent)
    | none => ({ base with flagged := true }, false)
  match peersConnectionStatus.lookup peer with
  | some (.error _) =>
    { st with flagged := st.flagged || !hasRecentContribution
              connection_status := .Disconnected }
  | some (.ok .Disconnected) | none =>
    { st with flagged := st.flagged || !hasRecentContribution
              connection_status := .Disconnected }
  | some (.ok .Connected) =>
    { st with connection_status := .Connected }

/-- `calculate_consensus_status`: the peer universe is the union of the
keys of the connection-status map and the contribution map; each peer is
scored by `peerConsensusStatus`; the aggregate counters count connected,
disconnected and flagged entries. -/
def calculate_consensus_status
    (latestContributionByPeer : List (Nat × ConsensusContribution))
    (ourLastContribution : Nat)
    (peersConnectionStatus : List (Nat × Except String PeerConnectionStatus))
    (now grace : Nat) : ConsensusStatus :=
  let peers :=
    (peersConnectionStatus.map Prod.fst ++
      latestContributionByPeer.map Prod.fst).dedup
  let statusByPeer := peers.map fun peer =>
    (peer,
     peerConsensusStatus latestContributionByPeer ourLastContribution
       peersConnectionStatus now grace peer)
  { last_contribution := ourLastContribution
    peers_online :=
      (statusByPeer.filter
        (fun p => p.2.connection_status == PeerConnectionStatus.Connected)).length
    peers_offline :=
      (statusByPeer.filter
        (fun p => p.2.connection_status == PeerConnectionStatus.Disconnected)).length
    peers_flagged := (statusByPeer.filter (fun p => p.2.flagged)).length
    status_by_peer := statusByPeer }

/-! ## Transaction admission pipeline (`submit_transaction`, api.rs 93-149)
and transaction status queries (api.rs 151-197)

A transaction is a list of typed inputs and outputs; each carries a
module-instance id.  The module registry, transaction hash, signature
verification and the admission channel are opaque collaborators gathered
in a `ConsensusEnv`.  `Option.none` on the outer level models a Rust
panic (`expect`). -/

structure TxInput where
  moduleInstanceId : Nat
  data : Nat
deriving Repr, DecidableEq

structure TxOutput where
  moduleInstanceId : Nat
  data : Nat
deriving Repr, DecidableEq

structure Transaction where
  inputs : List TxInput
  outputs : List TxOutput
deriving Repr, DecidableEq

structure OutPoint where
  txid : Nat
  out_idx : Nat
deriving Repr, DecidableEq

inductive ApiEvent where
  | Transaction (tx : Transaction)
  | UpgradeSignal
  | ForceProcessOutcome (outcome : Nat)
deriving Repr, DecidableEq

inductive TransactionStatus where
  | Accepted (epoch : Nat) (outputs : List Nat)
deriving Repr, DecidableEq

structure InputMeta where
  amount : Nat
  pubKeys : List Nat
deriving Repr, DecidableEq

/-- One module of the registry: `validate_input`, `validate_output` and
`output_status` against a fixed read snapshot of its database prefix
(`build_verification_cache` is folded into `validate_input`, which in the
source receives the cache built from the single input being checked). -/
structure Module where
  validate_input : TxInput → Except String InputMeta
  validate_output : TxOutput → Except String Nat
  output_status : OutPoint → Nat → Option Nat

/-- The collaborators of `ConsensusApi` that the admission and status
paths use: the accepted-transaction table, the module registry
(`get_expect` is total), the content hash, transaction signature
verification, and the admission-channel send (error = channel closed). -/
structure ConsensusEnv where
  acceptedTx : Nat → Option (List Nat)
  modules : Nat → Module
  txHash : Transaction → Nat
  validate_signature : Transaction → List Nat → Except String Unit
  send : ApiEvent → Except String Unit

/-- Modelled from the spec: `FundingVerifier` (imported by api.rs from
`crate::consensus`, whose source is not part of this repository) keeps a
running sum of input and output amounts. -/
structure FundingVerifier where
  inputAmount : Nat := 0
  outputAmount : Nat := 0
deriving Repr, DecidableEq

/-- Modelled from the spec: `FundingVerifier::add_input` accumulates an
input amount. -/
def FundingVerifier.add_input (fv : FundingVerifier) (a : Nat) :
    FundingVerifier :=
  { fv with inputAmount := fv.inputAmount + a }

/-- Modelled from the spec: `FundingVerifier::add_output` accumulates an
output amount. -/
def FundingVerifier.add_output (fv : FundingVerifier) (a : Nat) :
    FundingVerifier :=
  { fv with outputAmount := fv.outputAmount + a }

/-- Modelled from the spec: `FundingVerifier::verify_funding` checks
Σ input amounts ≥ Σ output amounts. -/
def FundingVerifier.verify_funding (fv : FundingVerifier) :
    Except String Unit :=
  if fv.outputAmount ≤ fv.inputAmount then .ok ()
  else .error "The transaction is unbalanced"

/-- The input loop of `submit_transaction`: validate each input in order,
stopping at the first error.  Returns the collected public-key lists (on
overall success), the input amounts collected from the successful calls,
and the number of `validate_input` calls made. -/
def processInputs (modules : Nat → Module) :
    List TxInput → Except String (List (List Nat)) × List Nat × Nat
  | [] => (.ok [], [], 0)
  | i :: rest =>
    match (modules i.moduleInstanceId).validate_input i with
    | .error e => (.error e, [], 1)
    | .ok meta =>
      let (r, amts, n) := processInputs modules rest
      (r.map (meta.pubKeys :: ·), meta.amount :: amts, n + 1)

/-- The output loop of `submit_transaction`: validate each output in
order, stopping at the first error.  Returns the overall result, the
output amounts collected from the successful calls, and the number of
`validate_output` calls made. -/
def processOutputs (modules : Nat → Module) :
    List TxOutput → Except String Unit × List Nat × Nat
  | [] => (.ok (), [], 0)
  | o :: rest =>
    match (modules o.moduleInstanceId).validate_output o with
    | .error e => (.error e, [], 1)
    | .ok a =>
      let (r, amts, n) := processOutputs modules rest
      (r, a :: amts, n + 1)

/-- Effect trace of one `submit_transaction` execution: how many module
validations, signature checks and funding checks ran, which events were
delivered on the admission channel, and the amounts returned by the
successful `validate_input` / `validate_output` calls. -/
structure SubmitTrace where
  validateInputCalls : Nat := 0
  sigChecks : Nat := 0
  validateOutputCalls : Nat := 0
  fundingChecks : Nat := 0
  sent : List ApiEvent := []
  inputAmounts : List Nat := []
  outputAmounts : List Nat := []
deriving Repr, DecidableEq

/-- The module loop of `accepted_transaction_status`: query
`output_status` for each recorded module id paired with output indices
`startIdx, startIdx+1, …`; `none` models the `expect` panic on a missing
outcome. -/
def outputStatuses (env : ConsensusEnv) (txid : Nat) :
    List Nat → Nat → Option (List Nat)
  | [], _ => some []
  | moduleId :: rest, startIdx =>
    match (env.modules moduleId).output_status ⟨txid, startIdx⟩ moduleId with
    | none => none
    | some outcome =>
      (outputStatuses env txid rest (startIdx + 1)).map (outcome :: ·)

/-- `ConsensusApi::accepted_transaction_status`: collect the outcome of
every recorded output in order and mark the status `Accepted` with
`epoch = 0`.  `none` models the panic when a module cannot produce an
outcome for an accepted transaction. -/
def accepted_transaction_status (env : ConsensusEnv) (txid : Nat)
    (moduleIds : List Nat) : Option TransactionStatus :=
  (outputStatuses env txid moduleIds 0).map
    (fun outputs => .Accepted 0 outputs)

/-- `ConsensusApi::transaction_status`: `some none` means the lookup found
no accepted-transaction record (the Rust function returns `None`);
`some (some st)` means it returned `Some(st)`; the outer `none` models a
panic inside `accepted_transaction_status`. -/
def transaction_status (env : ConsensusEnv) (txid : Nat) :
    Option (Option TransactionStatus) :=
  match env.acceptedTx txid with
  | none => some none
  | some moduleIds =>
    (accepted_transaction_status env txid moduleIds).map some

/-- `ConsensusApi::submit_transaction` with an explicit effect trace.
The idempotence check runs first; then inputs are validated in order, the
signature is checked against the flattened public keys, outputs are
validated in order, the funding verifier is checked, and finally the
transaction is sent on the admission channel.  The first error aborts the
pipeline.  The outer `none` models a panic inside the initial
`transaction_status` call. -/
def submit_transaction (env : ConsensusEnv) (tx : Transaction) :
    Option (Except String Unit × SubmitTrace) :=
  match transaction_status env (env.txHash tx) with
  | none => none
  | some (some _) => some (.ok (), {})
  | some none =>
    let (rIn, inAmts, nIn) := processInputs env.modules tx.inputs
    match rIn with
    | .error e =>
      some (.error e, { validateInputCalls := nIn, inputAmounts := inAmts })
    | .ok pubKeys =>
      match env.validate_signature tx pubKeys.flatten with
      | .error e =>
        some (.error e,
          { validateInputCalls := nIn, sigChecks := 1,
            inputAmounts := inAmts })
      | .ok _ =>
        let (rOut, outAmts, nOut) := processOutputs env.modules tx.outputs
        match rOut with
        | .error e =>
          some (.error e,
            { validateInputCalls := nIn, sigChecks := 1,
              validateOutputCalls := nOut, inputAmounts := inAmts,
              outputAmounts := outAmts })
        | .ok _ =>
          let fv := outAmts.foldl FundingVerifier.add_output
            (inAmts.foldl FundingVerifier.add_input {})
          match fv.verify_funding with
          | .error e =>
            some (.error e,
              { validateInputCalls := nIn, sigChecks := 1,
                validateOutputCalls := nOut, fundingChecks := 1,
                inputAmounts := inAmts, outputAmounts := outAmts })
          | .ok _ =>
            match env.send (.Transaction tx) with
            | .error e =>
              some (.error e,
                { validateInputCalls := nIn, sigChecks := 1,
                  validateOutputCalls := nOut, fundingChecks := 1,
                  inputAmounts := inAmts, outputAmounts := outAmts })
            | .ok _ =>
              some (.ok (),
                { validateInputCalls := nIn, sigChecks := 1,
                  validateOutputCalls := nOut, fundingChecks := 1,
                  sent := [.Transaction tx], inputAmounts := inAmts,
                  outputAmounts := outAmts })

/-! ## Lightning gateway: outgoing payment state machine
(`LnGateway::pay_invoice` and helpers, gateway lib.rs 181-384)

The federation client and the Lightning RPC are opaque collaborators
gathered in a `GatewayEnv`; their errors are strings, wrapped into
`LnGatewayError` exactly where the source wraps them (`?` uses the
`From<ClientError>` conversion, the external pay path uses
`CouldNotRoute`). -/

inductive LnGatewayError where
  | ClientError (e : String)
  | CouldNotRoute (e : String)
  | MintClientE (e : String)
  | Other (e : String)
deriving Repr, DecidableEq

structure ContractAccount where
  contractId : Nat
  invoice : String
deriving Repr, DecidableEq

structure PaymentParameters where
  maybeInternal : Bool
  paymentHash : Nat
  invoiceAmount : Nat
  maxDelay : Nat
  maxFeePercent : Nat
deriving Repr, DecidableEq

/-- The collaborators of `LnGateway` used by the outgoing-payment and
withdraw paths. -/
structure GatewayEnv where
  fetch_outgoing_contract : Nat → Except String ContractAccount
  validate_outgoing_account : ContractAccount → Except String PaymentParameters
  offer_exists : Nat → Except String Bool
  buy_preimage_offer : Nat → Nat → Except String (OutPoint × Nat)
  await_preimage_decryption : OutPoint → Except String Nat
  refund_incoming_contract : Nat → Except String Unit
  ln_pay : String → Nat → Nat → Except String Nat
  claim_outgoing_contract : Nat → Nat → Except String OutPoint
  abort_outgoing_payment : Nat → Except String Unit
  new_peg_out_with_fees : Nat → Nat → Except String Nat
  peg_out : Nat → Except String OutPoint

/-- Effect trace of one `pay_invoice` execution. -/
structure PayTrace where
  savedLocally : Bool := false
  abortCalled : Bool := false
  refundCalled : Bool := false
deriving Repr, DecidableEq

/-- `LnGateway::buy_preimage_internal`: buy a preimage offer from the
federation and await its decryption; on decryption failure request a
refund (propagating the refund's own error if it also fails, otherwise
wrapping the decryption error as `ClientError`).  The `Bool` component
records whether the refund was requested. -/
def buy_preimage_internal (env : GatewayEnv) (paymentHash invoiceAmount : Nat) :
    Except LnGatewayError Nat × Bool :=
  match env.buy_preimage_offer paymentHash invoiceAmount with
  | .error e => (.error (.ClientError e), false)
  | .ok (outPoint, contractId) =>
    match env.await_preimage_decryption outPoint with
    | .ok preimage => (.ok preimage, false)
    | .error e =>
      match env.refund_incoming_contract contractId with
      | .error re => (.error (.ClientError re), true)
      | .ok _ => (.error (.ClientError e), true)

/-- `LnGateway::buy_preimage_external`: pay the invoice over the
Lightning RPC; a failure becomes `CouldNotRoute`. -/
def buy_preimage_external (env : GatewayEnv) (invoice : String)
    (paymentParams : PaymentParameters) : Except LnGatewayError Nat :=
  match env.ln_pay invoice paymentParams.maxDelay paymentParams.maxFeePercent with
  | .ok preimage => .ok preimage
  | .error e => .error (.CouldNotRoute e)

/-- The preimage-acquisition step of `LnGateway::pay_invoice`: decide
`internal` iff the payment parameters allow it **and** the federation
has an offer for the payment hash (an `offer_exists` lookup error counts
as `false`), then run the internal or the external path.  The `Bool`
component is the internal path's refund flag. -/
def acquire_preimage (env : GatewayEnv) (contractAccount : ContractAccount)
    (paymentParams : PaymentParameters) : Except LnGatewayError Nat × Bool :=
  let isInternalPayment := paymentParams.maybeInternal &&
    (match env.offer_exists paymentParams.paymentHash with
     | .ok b => b
     | .error _ => false)
  if isInternalPayment then
    buy_preimage_internal env paymentParams.paymentHash
      paymentParams.invoiceAmount
  else
    (buy_preimage_external env contractAccount.invoice paymentParams, false)

/-- `LnGateway::pay_invoice`: fetch the outgoing contract, validate it,
save it locally, acquire the preimage internally or externally, then
claim the contract.  Only a preimage-acquisition failure triggers the
federation-side abort; if the abort itself fails, its error replaces the
original one. -/
def pay_invoice (env : GatewayEnv) (contractId : Nat) :
    Except LnGatewayError OutPoint × PayTrace :=
  match env.fetch_outgoing_contract contractId with
  | .error e => (.error (.ClientError e), {})
  | .ok contractAccount =>
    match env.validate_outgoing_account contractAccount with
    | .error e => (.error (.ClientError e), {})
    | .ok paymentParams =>
      -- save_outgoing_payment: infallible local write
      let saved : PayTrace := { savedLocally := true }
      let (preimageRes, refundCalled) :=
        acquire_preimage env contractAccount paymentParams
      match preimageRes with
      | .ok preimage =>
        match env.claim_outgoing_contract contractId preimage with
        | .ok outpoint =>
          (.ok outpoint, { saved with refundCalled := refundCalled })
        | .error e =>
          (.error (.ClientError e), { saved with refundCalled := refundCalled })
      | .error e =>
        match env.abort_outgoing_payment contractId with
        | .ok _ =>
          (.error e,
           { saved with abortCalled := true, refundCalled := refundCalled })
        | .error ae =>
          (.error (.ClientError ae),
           { saved with abortCalled := true, refundCalled := refundCalled })

/-- `LnGateway::handle_withdraw_msg`: `new_peg_out_with_fees` is
`.unwrap()`ed — a failure there is a panic, modelled as `none`; otherwise
`peg_out` runs, its error wrapped as `ClientError` and its outpoint's
txid returned. -/
def handle_withdraw_msg (env : GatewayEnv) (amount address : Nat) :
    Option (Except LnGatewayError Nat) :=
  match env.new_peg_out_with_fees amount address with
  | .error _ => none
  | .ok pegOutId =>
    some (match env.peg_out pegOutId with
      | .ok outPoint => .ok outPoint.txid
      | .error e => .error (.ClientError e))

/-! ## Lightning RPC connect retry loop
(`NetworkLnRpcClient::connect`, lnrpc_client.rs 69-91)

The environment is the outcome of each successive connection attempt
(attempt `k` is the `k`-th pass through the loop body, folding a failed
`Endpoint::from_shared` into a failed attempt).  The embedding returns
the result together with the number of attempts made and the number of
1-second sleeps performed. -/

def MAX_LIGHTNING_RETRIES : Nat := 10

/-- The retry loop of `NetworkLnRpcClient::connect`, entered with the
given `retries` counter: once `retries` reaches `MAX_LIGHTNING_RETRIES`
a hard error is returned; otherwise the next attempt runs, a success
breaks out of the loop, and a failure sleeps one second and retries. -/
def connectFrom (attempts : Nat → Option Nat) (retries : Nat) :
    Except String Nat × Nat × Nat :=
  if MAX_LIGHTNING_RETRIES ≤ retries then
    (.error "Failed to connect to CLN", 0, 0)
  else
    match attempts retries with
    | some client => (.ok client, 1, 0)
    | none =>
      let (r, made, sleeps) := connectFrom attempts (retries + 1)
      (r, made + 1, sleeps + 1)
termination_by MAX_LIGHTNING_RETRIES - retries

/-- `NetworkLnRpcClient::connect` starts the loop with `retries = 0`. -/
def connect (attempts : Nat → Option Nat) : Except String Nat × Nat × Nat :=
  connectFrom attempts 0

/-- A concrete gateway environment: a fetchable contract whose validation
fails, and a failing `new_peg_out_with_fees`. -/
def sampleGatewayEnv : GatewayEnv where
  fetch_outgoing_contract := fun _ => .ok ⟨1, "inv"⟩
  validate_outgoing_account := fun _ => .error "validation failed"
  offer_exists := fun _ => .ok false
  buy_preimage_offer := fun _ _ => .ok (⟨0, 0⟩, 0)
  await_preimage_decryption := fun _ => .ok 0
  refund_incoming_contract := fun _ => .ok ()
  ln_pay := fun _ _ _ => .error "no route"
  claim_outgoing_contract := fun _ _ => .ok ⟨0, 0⟩
  abort_outgoing_payment := fun _ => .ok ()
  new_peg_out_with_fees := fun _ _ => .error "insufficient funds"
  peg_out := fun _ => .ok ⟨0, 0⟩

/-- A concrete gateway environment whose external payment path fails and
whose abort succeeds. -/
def sampleGatewayEnv2 : GatewayEnv :=
  { sampleGatewayEnv with
      validate_outgoing_account := fun _ => .ok ⟨false, 5, 1000, 10, 2⟩ }

/-- A concrete consensus environment in which every transaction hash has
an accepted-transaction record with two recorded module ids. -/
def sampleConsensusEnv : ConsensusEnv where
  acceptedTx := fun _ => some [1, 1]
  modules := fun _ =>
    { validate_input := fun _ => .ok ⟨0, []⟩
      validate_output := fun _ => .ok 0
      output_status := fun _ _ => some 0 }
  txHash := fun _ => 0
  validate_signature := fun _ _ => .ok ()
  send := fun _ => .ok ()

/-- A concrete consensus environment with no accepted transactions, one
input worth 2 and one output worth 1 per module call. -/
def sampleConsensusEnv2 : ConsensusEnv where
  acceptedTx := fun _ => none
  modules := fun _ =>
    { validate_input := fun _ => .ok ⟨2, [7]⟩
      validate_output := fun _ => .ok 1
      output_status := fun _ _ => some 0 }
  txHash := fun _ => 0
  validate_signature := fun _ _ => .ok ()
  send := fun _ => .ok ()

/-- A concrete one-input one-output transaction. -/
def sampleTx : Transaction := ⟨[⟨0, 0⟩], [⟨0, 0⟩]⟩

/-! ## Theorems -/

/-- C3 counterexample: starting from an empty cache of duration 10, a
`get` whose producer yields an error returns that error **and stores it
in the cache**; a second `get` five time units later (within the
duration window) returns the cached error without invoking its producer
— contradicting the claim that a failure is not cached and that a
subsequent `get` within the window invokes the producer again. -/
theorem expiringCache_error_is_cached_cex :
    let c0 : ExpiringCache (Except String Nat) := ⟨none, 10⟩
    let r1 := c0.get 0 (fun _ => .error "boom")
    let r2 := r1.2.1.get 5 (fun _ => .ok 42)
    r1.1 = .error "boom" ∧
    r1.2.1.data = some (.error "boom", 0) ∧
    r2.1 = .error "boom" ∧
    r2.2.2 = false := by
  refine ⟨rfl, rfl, rfl, rfl⟩

/-- C3 amended: when the cache holds no fresh value and the producer
yields an error, the error is returned to the caller **and stored in the
cache with the current instant**, so every subsequent `get` within the
duration window returns the cached error without invoking its producer. -/
theorem expiringCache_error_propagates_and_is_cached
    {Er A : Type} (c : ExpiringCache (Except Er A)) (now : Nat)
    (f : Unit → Except Er A) (e : Er)
    (hf : f () = .error e)
    (hstale : ∀ v t, c.data = some (v, t) → c.duration ≤ now - t) :
    (c.get now f).1 = .error e ∧
    (c.get now f).2.1.data = some (.error e, now) ∧
    (c.get now f).2.2 = true ∧
    ∀ (now' : Nat) (f' : Unit → Except Er A), now' - now < c.duration →
      ((c.get now f).2.1.get now' f').1 = .error e ∧
      ((c.get now f).2.1.get now' f').2.2 = false := by
  obtain ⟨data, dur⟩ := c
  have hfresh :
      ∀ (now' : Nat) (f' : Unit → Except Er A), now' - now < dur →
        ((⟨some (.error e, now), dur⟩ :
            ExpiringCache (Except Er A)).get now' f').1 = .error e ∧
        ((⟨some (.error e, now), dur⟩ :
            ExpiringCache (Except Er A)).get now' f').2.2 = false := by
    intro now' f' h
    simp [ExpiringCache.get, if_pos h]
  cases data with
  | none =>
    have hg : (ExpiringCache.get ⟨none, dur⟩ now f) =
        (Except.error e, ⟨some (Except.error e, now), dur⟩, true) := by
      simp [ExpiringCache.get, hf]
    rw [hg]
    exact ⟨rfl, rfl, rfl, hfresh⟩
  | some p =>
    obtain ⟨v, t⟩ := p
    have h1 : ¬ (now - t < dur) := by
      have h2 : dur ≤ now - t := hstale v t rfl
      omega
    have hg : (ExpiringCache.get ⟨some (v, t), dur⟩ now f) =
        (Except.error e, ⟨some (Except.error e, now), dur⟩, true) := by
      simp [ExpiringCache.get, h1, hf]
    rw [hg]
    exact ⟨rfl, rfl, rfl, hfresh⟩

/-- Auxiliary: a matching-token call bumps a present counter by one. -/
theorem downloadStateAfter_some (cfgToken : String) (limit : Option Nat)
    (clientCfg : Nat) :
    ∀ (k m : Nat),
      downloadStateAfter cfgToken limit clientCfg k (some m) = some (m + k) := by
  intro k
  induction k with
  | zero => intro m; rfl
  | succ n ih =>
    intro m
    have hstep :
        (download_client_config cfgToken limit clientCfg cfgToken (some m)).2 =
          some (m + 1) := by
      unfold download_client_config
      cases limit with
      | none => simp
      | some l =>
        by_cases hl : m + 1 > l <;> simp [hl]
    rw [downloadStateAfter, hstep, ih]
    congr 1
    omega

/-- Auxiliary: starting from an absent counter, after `k` matching-token
calls the stored counter is `k` (absent when `k = 0`). -/
theorem downloadStateAfter_none (cfgToken : String) (limit : Option Nat)
    (clientCfg : Nat) (k : Nat) :
    downloadStateAfter cfgToken limit clientCfg k none =
      if k = 0 then none else some k := by
  cases k with
  | zero => rfl
  | succ n =>
    have hstep :
        (download_client_config cfgToken limit clientCfg cfgToken none).2 =
          some 1 := by
      unfold download_client_config
      cases limit with
      | none => simp
      | some l =>
        by_cases hl : 1 > l <;> simp [hl]
    rw [downloadStateAfter, hstep, downloadStateAfter_some]
    simp
    omega

/-- C6: with a configured limit `N` and an initially absent counter, the
`k`-th sequential `download_client_config` call with the matching token
returns the client config when `k ≤ N` and bad-request "Download token
used too many times" when `k > N`; a call with a non-matching token
returns bad-request "Download token not found" and leaves the counter
unchanged. -/
theorem download_client_config_limit (N clientCfg : Nat) (cfgToken : String)
    (k : Nat) (hk : 1 ≤ k) :
    (download_client_config cfgToken (some N) clientCfg cfgToken
        (downloadStateAfter cfgToken (some N) clientCfg (k - 1) none)).1 =
      (if k ≤ N then .ok clientCfg
       else .error (.badRequest "Download token used too many times")) ∧
    (∀ (t : String) (st : Option Nat), t ≠ cfgToken →
      download_client_config cfgToken (some N) clientCfg t st =
        (.error (.badRequest "Download token not found"), st)) := by
  constructor
  · rw [downloadStateAfter_none]
    have hcnt : (if k - 1 = 0 then (none : Option Nat)
        else some (k - 1)).getD 0 + 1 = k := by
      by_cases h0 : k - 1 = 0 <;> simp [h0] <;> omega
    unfold download_client_config
    simp only [ne_eq, not_true_eq_false, if_neg, ite_false, if_false]
    rw [hcnt]
    by_cases hN : k ≤ N
    · have : ¬ k > N := by omega
      simp [this, hN]
    · have : k > N := by omega
      simp [this, hN]
  · intro t st ht
    unfold download_client_config
    simp [ht]

/-- C6 witness: limit 3, fourth call rejected; mismatching token
rejected with "not found". -/
theorem download_client_config_limit_witness :
    (download_client_config "tok" (some 3) 7 "tok"
        (downloadStateAfter "tok" (some 3) 7 3 none)).1 =
      .error (.badRequest "Download token used too many times") ∧
    download_client_config "tok" (some 3) 7 "bad" none =
      (.error (.badRequest "Download token not found"), none) := by
  have h := download_client_config_limit 3 7 "tok" 4 (by decide)
  exact ⟨by simpa using h.1, h.2 "bad" none (by decide)⟩

/-- Auxiliary: one backup operation never decreases the stored timestamp
of any id, and never deletes a record. -/
theorem backup_step_mono (db : Nat → Option ClientBackupSnapshot)
    (r : BackupRequest) (i : Nat) (s : ClientBackupSnapshot)
    (h : db i = some s) :
    ∃ s', (handle_backup_request db r).2 i = some s' ∧
      s.timestamp ≤ s'.timestamp := by
  unfold handle_backup_request
  by_cases hsig : r.sigValid
  · simp only [hsig, not_true_eq_false, if_neg, ite_false, if_false]
    cases hprev : db r.id with
    | none =>
      by_cases hi : i = r.id
      · rw [hi, hprev] at h; cases h
      · exact ⟨s, by simp [hi, h], le_refl _⟩
    | some prev =>
      by_cases hts : r.timestamp ≤ prev.timestamp
      · simp only [hts, ite_true, if_pos]
        exact ⟨s, h, le_refl _⟩
      · simp only [hts, ite_false, if_neg, not_false_iff]
        by_cases hi : i = r.id
        · refine ⟨⟨r.timestamp, r.payload⟩, by simp [hi], ?_⟩
          rw [hi, hprev] at h
          cases h
          show s.timestamp ≤ r.timestamp
          omega
        · exact ⟨s, by simp [hi, h], le_refl _⟩
  · simp only [hsig, not_false_iff, if_pos, ite_true]
    exact ⟨s, h, le_refl _⟩

/-- Auxiliary: across any sequence of backup operations the stored
timestamp of an id never decreases. -/
theorem applyBackups_mono (reqs : List BackupRequest) :
    ∀ (db : Nat → Option ClientBackupSnapshot) (i : Nat)
      (s : ClientBackupSnapshot), db i = some s →
      ∃ s', applyBackups db reqs i = some s' ∧
        s.timestamp ≤ s'.timestamp := by
  induction reqs with
  | nil => intro db i s h; exact ⟨s, h, le_refl _⟩
  | cons r rest ih =>
    intro db i s h
    obtain ⟨s₁, h₁, hle₁⟩ := backup_step_mono db r i s h
    obtain ⟨s₂, h₂, hle₂⟩ := ih (handle_backup_request db r).2 i s₁ h₁
    exact ⟨s₂, h₂, le_trans hle₁ hle₂⟩

/-- C7: an invalidly-signed request is rejected with "invalid request"
and leaves the store unchanged; a validly-signed request whose timestamp
is at most the stored one is rejected with "timestamp too small" and
leaves the store unchanged; otherwise the new record is written and
`recover` returns it; consequently, across any sequence of backup
operations the timestamps observable via `recover` never decrease. -/
theorem backup_timestamps_monotone (db : Nat → Option ClientBackupSnapshot)
    (r : BackupRequest) :
    (¬ r.sigValid →
      handle_backup_request db r = (.error (.badRequest "invalid request"), db)) ∧
    (∀ prev, r.sigValid → db r.id = some prev →
      r.timestamp ≤ prev.timestamp →
      handle_backup_request db r =
        (.error (.badRequest "timestamp too small"), db)) ∧
    (r.sigValid → (∀ prev, db r.id = some prev → prev.timestamp < r.timestamp) →
      (handle_backup_request db r).1 = .ok () ∧
      handle_recover_request (handle_backup_request db r).2 r.id =
        some ⟨r.timestamp, r.payload⟩) ∧
    (∀ (reqs : List BackupRequest) (i : Nat) (s s' : ClientBackupSnapshot),
      handle_recover_request db i = some s →
      handle_recover_request (applyBackups db reqs) i = some s' →
      s.timestamp ≤ s'.timestamp) := by
  refine ⟨?_, ?_, ?_, ?_⟩
  · intro hsig
    unfold handle_backup_request
    simp [hsig]
  · intro prev hsig hprev hts
    unfold handle_backup_request
    simp [hsig, hprev, hts]
  · intro hsig hfresh
    unfold handle_backup_request handle_recover_request
    cases hprev : db r.id with
    | none => simp [hsig]
    | some prev =>
      have := hfresh prev hprev
      have hts : ¬ r.timestamp ≤ prev.timestamp := by omega
      simp [hsig, hts]
  · intro reqs i s s' hs hs'
    obtain ⟨s₂, h₂, hle⟩ := applyBackups_mono reqs db i s hs
    unfold handle_recover_request at hs'
    rw [hs'] at h₂
    cases h₂
    exact hle

/-- C7 witness: a write at t=100, a rejected equal-timestamp write, a
successful write at t=101, and monotonicity across that sequence. -/
theorem backup_timestamps_monotone_witness :
    (¬ (false = true) →
      handle_backup_request (fun _ => none) ⟨false, 0, 100, [1]⟩ =
        (.error (.badRequest "invalid request"), fun _ => none)) ∧
    (∀ prev, (true = true) →
      (fun _ => some (⟨100, [1]⟩ : ClientBackupSnapshot)) (0 : Nat) = some prev →
      (100 : Nat) ≤ prev.timestamp →
      handle_backup_request (fun _ => some ⟨100, [1]⟩) ⟨true, 0, 100, [2]⟩ =
        (.error (.badRequest "timestamp too small"), fun _ => some ⟨100, [1]⟩)) ∧
    ((true = true) →
      (∀ prev, (fun _ => some (⟨100, [1]⟩ : ClientBackupSnapshot)) (0 : Nat) =
        some prev → prev.timestamp < 101) →
      (handle_backup_request (fun _ => some ⟨100, [1]⟩) ⟨true, 0, 101, [2]⟩).1 =
        .ok () ∧
      handle_recover_request
        (handle_backup_request (fun _ => some ⟨100, [1]⟩) ⟨true, 0, 101, [2]⟩).2
        0 = some ⟨101, [2]⟩) := by
  refine ⟨?_, ?_, ?_⟩
  · intro h
    exact (backup_timestamps_monotone (fun _ => none) ⟨false, 0, 100, [1]⟩).1 h
  · intro prev _ hprev hts
    exact (backup_timestamps_monotone (fun _ => some ⟨100, [1]⟩)
      ⟨true, 0, 100, [2]⟩).2.1 prev rfl hprev hts
  · intro _ hfresh
    exact (backup_timestamps_monotone (fun _ => some ⟨100, [1]⟩)
      ⟨true, 0, 101, [2]⟩).2.2.1 rfl hfresh

/-- Auxiliary: the per-peer score never flags a connected peer that has a
contribution record at most `grace` old. -/
theorem peerConsensusStatus_flagged
    (contrib : List (Nat × ConsensusContribution)) (ourLast : Nat)
    (conn : List (Nat × Except String PeerConnectionStatus))
    (now grace p : Nat)
    (hflag : (peerConsensusStatus contrib ourLast conn now grace p).flagged = true)
    (hconn : (peerConsensusStatus contrib ourLast conn now grace p).connection_status =
      .Connected) :
    ¬ ∃ c, contrib.lookup p = some c ∧ now - c.time ≤ grace := by
  rintro ⟨c, hc, hrecent⟩
  unfold peerConsensusStatus at hflag hconn
  rw [hc] at hflag hconn
  rcases hcn : conn.lookup p with _ | st
  · rw [hcn] at hconn
    simp at hconn
  · rcases st with e | cs
    · rw [hcn] at hconn
      simp at hconn
    · cases cs with
      | Disconnected =>
        rw [hcn] at hconn
        simp at hconn
      | Connected =>
        rw [hcn] at hflag
        simp [hrecent] at hflag

/-- C4: every flagged peer in the `status_by_peer` output of
`calculate_consensus_status` is not both connected and in possession of a
contribution record at most `grace` old. -/
theorem consensus_flagged_implies_not_healthy
    (contrib : List (Nat × ConsensusContribution)) (ourLast : Nat)
    (conn : List (Nat × Except String PeerConnectionStatus))
    (now grace p : Nat) (st : PeerConsensusStatus)
    (hmem : (p, st) ∈
      (calculate_consensus_status contrib ourLast conn now grace).status_by_peer)
    (hflag : st.flagged = true) :
    ¬ (st.connection_status = .Connected ∧
       ∃ c, contrib.lookup p = some c ∧ now - c.time ≤ grace) := by
  rintro ⟨hconn, hrec⟩
  have hst : st = peerConsensusStatus contrib ourLast conn now grace p := by
    unfold calculate_consensus_status at hmem
    simp only [List.mem_map] at hmem
    obtain ⟨q, _, hq⟩ := hmem
    cases hq
    rfl
  exact peerConsensusStatus_flagged contrib ourLast conn now grace p
    (hst ▸ hflag) (hst ▸ hconn) hrec

/-- C4 witness: a peer with no contribution record and a disconnected
status is flagged, and is indeed not connected-with-recent-contribution. -/
theorem consensus_flagged_implies_not_healthy_witness :
    ((0, ({ connection_status := .Disconnected, flagged := true } :
        PeerConsensusStatus)) ∈
      (calculate_consensus_status [] 0 [(0, .ok .Disconnected)] 0 0).status_by_peer) ∧
    ¬ (({ connection_status := .Disconnected, flagged := true } :
          PeerConsensusStatus).connection_status = .Connected ∧
       ∃ c, ([] : List (Nat × ConsensusContribution)).lookup 0 = some c ∧
         0 - c.time ≤ 0) := by
  refine ⟨by decide, ?_⟩
  exact consensus_flagged_implies_not_healthy [] 0 [(0, .ok .Disconnected)]
    0 0 0 { connection_status := .Disconnected, flagged := true }
    (by decide) rfl

/-- Auxiliary: the retry loop never makes more than
`MAX_LIGHTNING_RETRIES - retries` attempts. -/
theorem connectFrom_made_le (attempts : Nat → Option Nat) :
    ∀ (n retries : Nat), n = MAX_LIGHTNING_RETRIES - retries →
      (connectFrom attempts retries).2.1 ≤ MAX_LIGHTNING_RETRIES - retries := by
  intro n
  induction n with
  | zero =>
    intro retries hn
    have hge : MAX_LIGHTNING_RETRIES ≤ retries := by omega
    rw [connectFrom, if_pos hge]
    simp
  | succ m ih =>
    intro retries hn
    have hlt : ¬ MAX_LIGHTNING_RETRIES ≤ retries := by omega
    rw [connectFrom, if_neg hlt]
    cases hat : attempts retries with
    | some c =>
      simp
      omega
    | none =>
      have := ih (retries + 1) (by omega)
      simp only []
      rcases hrec : connectFrom attempts (retries + 1) with ⟨r, made, sleeps⟩
      rw [hrec] at this
      simp at this ⊢
      omega

/-- Auxiliary: when attempts `retries, …, MAX-1` all fail, the loop ends
in the hard error after `MAX - retries` further attempts and as many
1-second sleeps. -/
theorem connectFrom_all_fail (attempts : Nat → Option Nat) :
    ∀ (n retries : Nat), n = MAX_LIGHTNING_RETRIES - retries →
      (∀ k, retries ≤ k → k < MAX_LIGHTNING_RETRIES → attempts k = none) →
      connectFrom attempts retries =
        (.error "Failed to connect to CLN",
          MAX_LIGHTNING_RETRIES - retries, MAX_LIGHTNING_RETRIES - retries) := by
  intro n
  induction n with
  | zero =>
    intro retries hn h
    have hge : MAX_LIGHTNING_RETRIES ≤ retries := by omega
    rw [connectFrom, if_pos hge]
    have h0 : MAX_LIGHTNING_RETRIES - retries = 0 := by omega
    rw [h0]
  | succ m ih =>
    intro retries hn h
    have hlt : ¬ MAX_LIGHTNING_RETRIES ≤ retries := by omega
    rw [connectFrom, if_neg hlt]
    rw [h retries (le_refl _) (by omega)]
    rw [ih (retries + 1) (by omega)
      (fun k hk hk2 => h k (by omega) hk2)]
    have h1 : MAX_LIGHTNING_RETRIES - (retries + 1) + 1 =
        MAX_LIGHTNING_RETRIES - retries := by omega
    simp only []
    rw [h1]

/-- Auxiliary: when attempts `retries, …, retries+k-1` fail and attempt
`retries+k` succeeds within the retry budget, the loop returns that
client after `k+1` attempts and `k` sleeps. -/
theorem connectFrom_success (attempts : Nat → Option Nat) :
    ∀ (k retries c : Nat), retries + k < MAX_LIGHTNING_RETRIES →
      attempts (retries + k) = some c →
      (∀ j, retries ≤ j → j < retries + k → attempts j = none) →
      connectFrom attempts retries = (.ok c, k + 1, k) := by
  intro k
  induction k with
  | zero =>
    intro retries c hlt hat _
    have hn : ¬ MAX_LIGHTNING_RETRIES ≤ retries := by omega
    rw [connectFrom, if_neg hn]
    simpa using congrArg (fun o => match o with
      | some client => ((.ok client, 1, 0) : Except String Nat × Nat × Nat)
      | none =>
        let r := connectFrom attempts (retries + 1)
        (r.1, r.2.1 + 1, r.2.2 + 1)) hat
  | succ m ih =>
    intro retries c hlt hat h
    have hn : ¬ MAX_LIGHTNING_RETRIES ≤ retries := by omega
    rw [connectFrom, if_neg hn]
    rw [h retries (le_refl _) (by omega)]
    have hrec := ih (retries + 1) c (by omega)
      (by rw [show retries + 1 + m = retries + (m + 1) by omega]; exact hat)
      (fun j hj hj2 => h j (by omega) (by omega))
    rw [hrec]

/-- C9: `connect` makes at most `MAX_LIGHTNING_RETRIES` (= 10) attempts;
if the first 10 attempts all fail it returns the hard error after 10
attempts with a 1-second sleep after each failure; if attempt `k`
(0-based, `k` < 10) is the first to succeed, the connected client is
returned after `k+1` attempts and `k` sleeps. -/
theorem connect_retry_spec (attempts : Nat → Option Nat) :
    (connect attempts).2.1 ≤ MAX_LIGHTNING_RETRIES ∧
    ((∀ k, k < MAX_LIGHTNING_RETRIES → attempts k = none) →
      connect attempts = (.error "Failed to connect to CLN",
        MAX_LIGHTNING_RETRIES, MAX_LIGHTNING_RETRIES)) ∧
    (∀ k c, k < MAX_LIGHTNING_RETRIES → attempts k = some c →
      (∀ j, j < k → attempts j = none) →
      connect attempts = (.ok c, k + 1, k)) := by
  refine ⟨?_, ?_, ?_⟩
  · have := connectFrom_made_le attempts (MAX_LIGHTNING_RETRIES - 0) 0 rfl
    simpa [connect] using this
  · intro h
    have := connectFrom_all_fail attempts (MAX_LIGHTNING_RETRIES - 0) 0 rfl
      (fun k _ hk2 => h k hk2)
    simpa [connect] using this
  · intro k c hk hat h
    have := connectFrom_success attempts k 0 c (by omega) (by simpa using hat)
      (fun j _ hj2 => h j (by omega))
    simpa [connect] using this

/-- C9 witness: with attempts 0 and 1 failing and attempt 2 succeeding
with client 77, `connect` returns client 77 after 3 attempts and
2 sleeps. -/
theorem connect_retry_spec_witness :
    connect (fun k => if k = 2 then some 77 else none) = (.ok 77, 3, 2) := by
  exact (connect_retry_spec (fun k => if k = 2 then some 77 else none)).2.2
    2 77 (by decide) (by decide)
    (fun j hj => by interval_cases j <;> decide)

/-- C8 counterexample: in `sampleGatewayEnv` the contract is fetched but
validation fails — a failure after the fetch — yet the federation-side
abort is **not** called and the error propagates directly, contradicting
the claim that any post-fetch failure triggers the abort. -/
theorem pay_invoice_validation_error_no_abort_cex :
    (pay_invoice sampleGatewayEnv 1).1 =
      .error (.ClientError "validation failed") ∧
    (pay_invoice sampleGatewayEnv 1).2.abortCalled = false :=
  ⟨rfl, rfl⟩

/-- C8 amended: the federation-side abort is called exactly when the
preimage-acquisition step fails, and the original error is returned when
the abort itself succeeds; a validation failure and a claim failure
propagate their error without calling the abort. -/
theorem pay_invoice_abort_spec (env : GatewayEnv) (contractId : Nat) :
    (∀ acct e, env.fetch_outgoing_contract contractId = .ok acct →
      env.validate_outgoing_account acct = .error e →
      pay_invoice env contractId = (.error (.ClientError e), {})) ∧
    (∀ acct params, env.fetch_outgoing_contract contractId = .ok acct →
      env.validate_outgoing_account acct = .ok params →
      (∀ e, (acquire_preimage env acct params).1 = .error e →
        (pay_invoice env contractId).2.abortCalled = true ∧
        (env.abort_outgoing_payment contractId = .ok () →
          (pay_invoice env contractId).1 = .error e)) ∧
      (∀ p, (acquire_preimage env acct params).1 = .ok p →
        (pay_invoice env contractId).2.abortCalled = false ∧
        (∀ e, env.claim_outgoing_contract contractId p = .error e →
          (pay_invoice env contractId).1 = .error (.ClientError e)))) := by
  constructor
  · intro acct e hfetch hval
    unfold pay_invoice
    simp only [hfetch, hval]
  · intro acct params hfetch hval
    unfold pay_invoice
    simp only [hfetch, hval]
    rcases hacq : acquire_preimage env acct params with ⟨pr, rc⟩
    constructor
    · intro e hpr
      simp at hpr
      subst hpr
      cases habort : env.abort_outgoing_payment contractId with
      | ok u => cases u; simp [habort]
      | error ae => simp [habort]
    · intro p hpr
      simp at hpr
      subst hpr
      cases hclaim : env.claim_outgoing_contract contractId p with
      | ok op => simp [hclaim]
      | error e => simp [hclaim]

/-- C8 amended, witness: in `sampleGatewayEnv2` the external payment
fails, the abort is called, and (the abort succeeding) the original
routing error is returned. -/
theorem pay_invoice_abort_spec_witness :
    (pay_invoice sampleGatewayEnv2 1).2.abortCalled = true ∧
    (sampleGatewayEnv2.abort_outgoing_payment 1 = .ok () →
      (pay_invoice sampleGatewayEnv2 1).1 =
        .error (.CouldNotRoute "no route")) := by
  exact ((pay_invoice_abort_spec sampleGatewayEnv2 1).2 ⟨1, "inv"⟩
    ⟨false, 5, 1000, 10, 2⟩ rfl rfl).1 (.CouldNotRoute "no route") rfl

/-- C10: when `new_peg_out_with_fees` fails, `handle_withdraw_msg`
panics (the `.unwrap()` in the source): no `LnGatewayError` reply is
produced at all. -/
theorem handle_withdraw_panics_on_peg_out_fees_error (env : GatewayEnv)
    (amount address : Nat) (e : String)
    (h : env.new_peg_out_with_fees amount address = .error e) :
    handle_withdraw_msg env amount address = none := by
  unfold handle_withdraw_msg
  rw [h]

/-- C10 witness: the sample environment's failing peg-out-fee
computation makes `handle_withdraw_msg` panic. -/
theorem handle_withdraw_panics_witness :
    handle_withdraw_msg sampleGatewayEnv 5 6 = none :=
  handle_withdraw_panics_on_peg_out_fees_error sampleGatewayEnv 5 6
    "insufficient funds" rfl

/-- C3 amended, witness at a concrete cache and producer. -/
theorem expiringCache_error_propagates_and_is_cached_witness :
    let c0 : ExpiringCache (Except String Nat) := ⟨none, 10⟩
    (c0.get 0 (fun _ => .error "boom")).1 = .error "boom" ∧
    (c0.get 0 (fun _ => .error "boom")).2.1.data = some (.error "boom", 0) ∧
    (c0.get 0 (fun _ => .error "boom")).2.2 = true ∧
    ∀ (now' : Nat) (f' : Unit → Except String Nat), now' - 0 < 10 →
      ((c0.get 0 (fun _ => .error "boom")).2.1.get now' f').1 =
        .error "boom" ∧
      ((c0.get 0 (fun _ => .error "boom")).2.1.get now' f').2.2 = false := by
  exact expiringCache_error_propagates_and_is_cached ⟨none, 10⟩ 0
    (fun _ => .error "boom") "boom" rfl (by intro v t h; cases h)

/-- C2: when the transaction's txid already has an accepted-transaction
record (`transaction_status` non-empty), `submit_transaction` returns ok
with an empty effect trace: no module validation, no signature check, no
funding check, and nothing sent on the admission channel. -/
theorem submit_transaction_idempotent (env : ConsensusEnv) (tx : Transaction)
    (st : TransactionStatus)
    (h : transaction_status env (env.txHash tx) = some (some st)) :
    submit_transaction env tx =
      some (.ok (), (⟨0, 0, 0, 0, [], [], []⟩ : SubmitTrace)) := by
  unfold submit_transaction
  rw [h]

/-- C2 witness: in `sampleConsensusEnv` every txid is already committed,
so a submit is a no-op returning ok. -/
theorem submit_transaction_idempotent_witness :
    submit_transaction sampleConsensusEnv sampleTx =
      some (.ok (), (⟨0, 0, 0, 0, [], [], []⟩ : SubmitTrace)) :=
  submit_transaction_idempotent sampleConsensusEnv sampleTx
    (.Accepted 0 [0, 0]) rfl

/-- Auxiliary: when every module query from start index `s` succeeds,
`outputStatuses` returns one outcome per recorded module id, in order. -/
theorem outputStatuses_spec (env : ConsensusEnv) (txid : Nat) :
    ∀ (ids : List Nat) (s : Nat),
      (∀ k, (hk : k < ids.length) →
        ((env.modules (ids.get ⟨k, hk⟩)).output_status ⟨txid, s + k⟩
          (ids.get ⟨k, hk⟩)).isSome) →
      ∃ outs, outputStatuses env txid ids s = some outs ∧
        outs.length = ids.length ∧
        ∀ k, k < ids.length →
          outs.get? k = (env.modules (ids.getD k 0)).output_status
            ⟨txid, s + k⟩ (ids.getD k 0) := by
  intro ids
  induction ids with
  | nil =>
    intro s _
    exact ⟨[], rfl, rfl, fun k hk => absurd hk (by simp)⟩
  | cons id rest ih =>
    intro s hq
    have h0 := hq 0 (by simp)
    rcases hoc : (env.modules id).output_status ⟨txid, s⟩ id with _ | oc
    · rw [show (List.get (id :: rest) ⟨0, by simp⟩) = id from rfl] at h0
      rw [show s + 0 = s by omega] at h0
      rw [hoc] at h0
      cases h0
    · obtain ⟨outs', houts', hlen', hget'⟩ := ih (s + 1) (by
        intro k hk
        have := hq (k + 1) (by simpa using Nat.succ_lt_succ hk)
        rw [show (List.get (id :: rest) ⟨k + 1, _⟩) =
          rest.get ⟨k, hk⟩ from rfl] at this
        rw [show s + (k + 1) = s + 1 + k by omega] at this
        exact this)
      refine ⟨oc :: outs', ?_, by simpa using hlen', ?_⟩
      · unfold outputStatuses
        rw [hoc, houts']
        rfl
      · intro k hk
        cases k with
        | zero =>
          rw [show s + 0 = s by omega]
          simpa using hoc.symm
        | succ m =>
          have hm : m < rest.length := by simpa using Nat.lt_of_succ_lt_succ hk
          have := hget' m hm
          rw [show s + (m + 1) = s + 1 + m by omega]
          simpa using this

/-- C5: a txid with an accepted-transaction record of `n` module ids
yields (when every module query succeeds, as accepted transactions
guarantee) an `Accepted` status with `epoch = 0` whose `n` outputs are
the `output_status` answers for out_idx `0, …, n-1` in order; a txid
with no record yields none. -/
theorem transaction_status_spec (env : ConsensusEnv) (txid : Nat) :
    (∀ ids, env.acceptedTx txid = some ids →
      (∀ k, (hk : k < ids.length) →
        ((env.modules (ids.get ⟨k, hk⟩)).output_status ⟨txid, k⟩
          (ids.get ⟨k, hk⟩)).isSome) →
      ∃ outs, transaction_status env txid =
          some (some (.Accepted 0 outs)) ∧
        outs.length = ids.length ∧
        ∀ k, k < ids.length →
          outs.get? k = (env.modules (ids.getD k 0)).output_status
            ⟨txid, k⟩ (ids.getD k 0)) ∧
    (env.acceptedTx txid = none → transaction_status env txid = some none) := by
  constructor
  · intro ids hids hq
    obtain ⟨outs, houts, hlen, hget⟩ := outputStatuses_spec env txid ids 0 (by
      intro k hk
      have := hq k hk
      rw [show (0 : Nat) + k = k by omega]
      exact this)
    refine ⟨outs, ?_, hlen, ?_⟩
    · unfold transaction_status accepted_transaction_status
      simp only [hids, houts]
      rfl
    · intro k hk
      have := hget k hk
      rw [show (0 : Nat) + k = k by omega] at this
      exact this
  · intro hids
    unfold transaction_status
    simp only [hids]

/-- C5 witness: in `sampleConsensusEnv` the record `[1, 1]` yields an
accepted status with two outcome entries queried at out_idx 0 and 1. -/
theorem transaction_status_spec_witness :
    ∃ outs, transaction_status sampleConsensusEnv 0 =
        some (some (.Accepted 0 outs)) ∧
      outs.length = ([1, 1] : List Nat).length ∧
      ∀ k, k < ([1, 1] : List Nat).length →
        outs.get? k =
          (sampleConsensusEnv.modules (([1, 1] : List Nat).getD k 0)).output_status
            ⟨0, k⟩ (([1, 1] : List Nat).getD k 0) :=
  (transaction_status_spec sampleConsensusEnv 0).1 [1, 1] rfl
    (fun _ _ => rfl)

/-- Auxiliary: folding `add_input` sums the amounts into `inputAmount`
and leaves `outputAmount` alone. -/
theorem foldl_add_input (l : List Nat) :
    ∀ fv : FundingVerifier,
      (l.foldl FundingVerifier.add_input fv).inputAmount =
          fv.inputAmount + l.sum ∧
      (l.foldl FundingVerifier.add_input fv).outputAmount =
          fv.outputAmount := by
  induction l with
  | nil => intro fv; simp
  | cons a rest ih =>
    intro fv
    have := ih (fv.add_input a)
    simp only [List.foldl_cons, List.sum_cons]
    refine ⟨?_, ?_⟩
    · rw [this.1]
      unfold FundingVerifier.add_input
      simp
      omega
    · rw [this.2]
      rfl

/-- Auxiliary: folding `add_output` sums the amounts into `outputAmount`
and leaves `inputAmount` alone. -/
theorem foldl_add_output (l : List Nat) :
    ∀ fv : FundingVerifier,
      (l.foldl FundingVerifier.add_output fv).outputAmount =
          fv.outputAmount + l.sum ∧
      (l.foldl FundingVerifier.add_output fv).inputAmount =
          fv.inputAmount := by
  induction l with
  | nil => intro fv; simp
  | cons a rest ih =>
    intro fv
    have := ih (fv.add_output a)
    simp only [List.foldl_cons, List.sum_cons]
    refine ⟨?_, ?_⟩
    · rw [this.1]
      unfold FundingVerifier.add_output
      simp
      omega
    · rw [this.2]
      rfl

/-- C1: whenever `submit_transaction` accepts a transaction — returning
ok with `Transaction(tx)` delivered on the admission channel — the sum of
the amounts returned by the `validate_input` calls is at least the sum of
the amounts returned by the `validate_output` calls; and whenever the
input sum falls short of the output sum, it returns an error and sends
nothing. -/
theorem submit_transaction_funding_invariant (env : ConsensusEnv)
    (tx : Transaction) (res : Except String Unit) (tr : SubmitTrace)
    (h : submit_transaction env tx = some (res, tr)) :
    ((res = .ok () ∧ ApiEvent.Transaction tx ∈ tr.sent) →
      tr.outputAmounts.sum ≤ tr.inputAmounts.sum) ∧
    (tr.inputAmounts.sum < tr.outputAmounts.sum →
      (∃ e, res = .error e) ∧ tr.sent = []) := by
  unfold submit_transaction at h
  rcases hts : transaction_status env (env.txHash tx) with _ | ost
  · rw [hts] at h
    cases h
  · rw [hts] at h
    cases ost with
    | some st =>
      simp only [Option.some.injEq, Prod.mk.injEq] at h
      obtain ⟨hres, htr⟩ := h
      subst hres
      subst htr
      constructor
      · rintro ⟨_, hmem⟩
        simp at hmem
      · intro hlt
        simp at hlt
    | none =>
      rcases hpi : processInputs env.modules tx.inputs with ⟨rIn, inAmts, nIn⟩
      simp only [hpi] at h
      cases rIn with
      | error e =>
        simp only [Option.some.injEq, Prod.mk.injEq] at h
        obtain ⟨hres, htr⟩ := h
        subst hres
        subst htr
        refine ⟨?_, ?_⟩
        · rintro ⟨hok, _⟩
          cases hok
        · intro _
          exact ⟨⟨e, rfl⟩, rfl⟩
      | ok pks =>
        cases hsig : env.validate_signature tx pks.flatten with
        | error e =>
          simp only [hsig, Option.some.injEq, Prod.mk.injEq] at h
          obtain ⟨hres, htr⟩ := h
          subst hres
          subst htr
          refine ⟨?_, ?_⟩
          · rintro ⟨hok, _⟩
            cases hok
          · intro _
            exact ⟨⟨e, rfl⟩, rfl⟩
        | ok u =>
          cases u
          simp only [hsig] at h
          rcases hpo : processOutputs env.modules tx.outputs with
            ⟨rOut, outAmts, nOut⟩
          simp only [hpo] at h
          cases rOut with
          | error e =>
            simp only [Option.some.injEq, Prod.mk.injEq] at h
            obtain ⟨hres, htr⟩ := h
            subst hres
            subst htr
            refine ⟨?_, ?_⟩
            · rintro ⟨hok, _⟩
              cases hok
            · intro _
              exact ⟨⟨e, rfl⟩, rfl⟩
          | ok u2 =>
            cases u2
            have hfvIn := foldl_add_input inAmts {}
            have hfvOut := foldl_add_output outAmts
              (inAmts.foldl FundingVerifier.add_input {})
            by_cases hfund : outAmts.sum ≤ inAmts.sum
            · have hvf : (outAmts.foldl FundingVerifier.add_output
                  (inAmts.foldl FundingVerifier.add_input {})).verify_funding =
                    .ok () := by
                unfold FundingVerifier.verify_funding
                rw [if_pos]
                rw [hfvOut.1, hfvOut.2, hfvIn.1, hfvIn.2]
                simpa using hfund
              simp only [hvf] at h
              cases hsend : env.send (.Transaction tx) with
              | error e =>
                simp only [hsend, Option.some.injEq, Prod.mk.injEq] at h
                obtain ⟨hres, htr⟩ := h
                subst hres
                subst htr
                refine ⟨?_, ?_⟩
                · rintro ⟨hok, _⟩
                  cases hok
                · intro _
                  exact ⟨⟨e, rfl⟩, rfl⟩
              | ok u3 =>
                cases u3
                simp only [hsend, Option.some.injEq, Prod.mk.injEq] at h
                obtain ⟨hres, htr⟩ := h
                subst hres
                subst htr
                refine ⟨?_, ?_⟩
                · intro _
                  exact hfund
                · intro hlt
                  simp at hlt
                  omega
            · have hvf : (outAmts.foldl FundingVerifier.add_output
                  (inAmts.foldl FundingVerifier.add_input {})).verify_funding =
                    .error "The transaction is unbalanced" := by
                unfold FundingVerifier.verify_funding
                rw [if_neg]
                rw [hfvOut.1, hfvOut.2, hfvIn.1, hfvIn.2]
                simpa using hfund
              simp only [hvf] at h
              simp only [Option.some.injEq, Prod.mk.injEq] at h
              obtain ⟨hres, htr⟩ := h
              subst hres
              subst htr
              refine ⟨?_, ?_⟩
              · rintro ⟨hok, _⟩
                cases hok
              · intro _
                exact ⟨⟨"The transaction is unbalanced", rfl⟩, rfl⟩

/-- C1 witness: in `sampleConsensusEnv2` a one-input (amount 2)
one-output (amount 1) transaction is accepted and sent, and indeed
1 ≤ 2. -/
theorem submit_transaction_funding_invariant_witness :
    (((Except.ok () : Except String Unit) = .ok () ∧
        ApiEvent.Transaction sampleTx ∈ [ApiEvent.Transaction sampleTx]) →
      ([1] : List Nat).sum ≤ ([2] : List Nat).sum) ∧
    (([2] : List Nat).sum < ([1] : List Nat).sum →
      (∃ e, (Except.ok () : Except String Unit) = .error e) ∧
      ([ApiEvent.Transaction sampleTx] : List ApiEvent) = []) :=
  submit_transaction_funding_invariant sampleConsensusEnv2 sampleTx
    (.ok ()) ⟨1, 1, 1, 1, [.Transaction sampleTx], [2], [1]⟩ rfl

end Fedimint
